import Mathlib

/-!
Verification of the openclaw-atlas StorageManager (storage.ts) against its
natural-language specification.

Modelling conventions (shallow embedding of the TypeScript source):
* Each on-disk directory (jobs, cache, index-state) is an association list
  from file name to file content; the metadata file (collections.json) is a
  single slot.  `writeFile` overwrites the (unique) entry with a given name
  or appends a fresh one; `removeFile` is unlink; `getFile` is read.
* A stored file is either a record that parses (constructor good) or an
  unparseable blob (constructor corrupt); JSON.parse failing inside a
  try/catch is modelled by the corrupt constructor mapping to the catch arm.
* ISO-8601 timestamp strings are modelled by their epoch-millisecond values
  (Nat): new Date().toISOString() stores the current now, and
  new Date(s).getTime() reads it back; Date.now() is an explicit now
  parameter threaded into every operation that consults the clock.
* JavaScript numbers holding counters/sizes are modelled as Nat, the 32-bit
  signed integer arithmetic of simpleHash as Int with explicit wrapping at
  2^32, and the floating-point hit-rate division as exact rational (Rat)
  arithmetic.
* charCodeAt is modelled as the character code point (the two coincide on
  the Basic Multilingual Plane, which covers every input considered here).
* localeCompare on the ASCII job identifiers produced by this store is
  modelled as code-point lexicographic string comparison (on the alphabet
  [a-z0-9-] used by job ids the two orders agree).
* The sizeBytes diagnostic of getCacheStats (a byte length of the
  serialized JSON text) is not modelled, because serialized text is not
  part of the state model; no claim refers to it.
-/

namespace Atlas

/-- Job status, from types.ts: pending, running, completed, failed, cancelled. -/
inductive IndexJobStatus where
  | pending
  | running
  | completed
  | failed
  | cancelled
deriving DecidableEq, BEq, Repr

/-- IndexJob record from types.ts.  Optional fields are Option; timestamp
strings are modelled as epoch milliseconds. -/
structure IndexJob where
  id : String
  status : IndexJobStatus
  targetPath : String
  collectionName : Option String
  totalDocuments : Nat
  processedDocuments : Nat
  failedDocuments : Nat
  startedAt : Option Nat
  completedAt : Option Nat
  eta : Option String
  error : Option String
  incremental : Option Bool
  skippedDocuments : Option Nat
  shardName : Option String
deriving DecidableEq, Repr

/-- A partial job update (Partial IndexJob plus jobId, as taken by
StorageManager.updateJob).  A `some` field is present in the update object
and overwrites the stored field; `none` means the key is absent. -/
structure IndexJobUpdate where
  jobId : String
  status : Option IndexJobStatus
  targetPath : Option String
  collectionName : Option String
  totalDocuments : Option Nat
  processedDocuments : Option Nat
  failedDocuments : Option Nat
  startedAt : Option Nat
  completedAt : Option Nat
  eta : Option String
  error : Option String
  incremental : Option Bool
  skippedDocuments : Option Nat
  shardName : Option String
deriving DecidableEq, Repr

/-- CollectionShard from types.ts. -/
structure CollectionShard where
  name : String
  range : String
  count : Nat
  path : String
deriving DecidableEq, Repr

/-- DocumentCollection from types.ts. -/
structure DocumentCollection where
  name : String
  path : String
  documentCount : Nat
  indexedAt : Option Nat
  lastModified : Option Nat
  shards : Option (List CollectionShard)
  isSharded : Option Bool
deriving DecidableEq, Repr

/-- IndexMetadata from types.ts (the collections.json document).  The
collections record is an association list from name to collection, in
insertion order, mirroring a JS object. -/
structure IndexMetadata where
  collections : List (String × DocumentCollection)
  lastIndexedAt : Nat
  totalDocuments : Nat
  activeJobs : Option (List String)
  completedJobs : Option Nat
deriving DecidableEq, Repr

/-- Search-result records are opaque to the storage layer (unknown[] in
setCache); they are modelled as strings. -/
abbrev SearchResult := String

/-- SearchCache from types.ts.  The ttl field stores the expiry instant
(the source serializes new Date(Date.now() + ttl) into it). -/
structure SearchCache where
  query : String
  collection : Option String
  results : List SearchResult
  cachedAt : Nat
  hitCount : Nat
  ttl : Nat
  resultCount : Nat
deriving DecidableEq, Repr

/-- DocumentIndexState from types.ts: the per-document fingerprint. -/
structure DocumentIndexState where
  path : String
  indexedAt : Nat
  fileModifiedAt : Nat
  hash : String
  size : Nat
  lastIndexedHash : Option String
deriving DecidableEq, Repr

/-- A file in the jobs directory: parses to a job or is corrupt. -/
inductive JobFile where
  | good (job : IndexJob)
  | corrupt
deriving DecidableEq, Repr

/-- A file in the cache directory. -/
inductive CacheFile where
  | good (entry : SearchCache)
  | corrupt
deriving DecidableEq, Repr

/-- A file in the index-state directory. -/
inductive StateFile where
  | good (state : DocumentIndexState)
  | corrupt
deriving DecidableEq, Repr

/-- The collections.json slot: absent, unparseable, or a good document.
loadMetadata treats the first two identically (catch arm). -/
inductive MetaFile where
  | missing
  | corrupt
  | good (m : IndexMetadata)
deriving DecidableEq, Repr

/-- The filesystem state owned by one StorageManager: the metadata file and
the three per-record directories. -/
structure StoreState where
  metadataFile : MetaFile
  jobsDir : List (String × JobFile)
  cacheDir : List (String × CacheFile)
  indexStateDir : List (String × StateFile)
deriving DecidableEq, Repr

/-- Read a file by name from a directory listing. -/
def getFile {α : Type} : List (String × α) → String → Option α
  | [], _ => none
  | (k, v) :: rest, name => if k = name then some v else getFile rest name

/-- Write a file: overwrite the entry with this name in place, or append a
fresh entry.  Directory listings have unique names, so at most the first
occurrence is ever relevant. -/
def writeFile {α : Type} : List (String × α) → String → α → List (String × α)
  | [], name, v => [(name, v)]
  | (k, w) :: rest, name, v =>
      if k = name then (name, v) :: rest else (k, w) :: writeFile rest name v

/-- Unlink a file by name. -/
def removeFile {α : Type} : List (String × α) → String → List (String × α)
  | [], _ => []
  | (k, w) :: rest, name => if k = name then rest else (k, w) :: removeFile rest name

/-- If a field is present in the update object it overwrites the stored
optional field, otherwise the stored value is kept (JS object spread). -/
def overlay {α : Type} (new old : Option α) : Option α :=
  match new with
  | some v => some v
  | none => old

-- ---------------------------------------------------------------------------
-- Metadata (collections.json)
-- ---------------------------------------------------------------------------

/-- StorageManager.loadMetadata: parse collections.json, or fall back to the
default document (empty collections, lastIndexedAt now, zero totals) when
the file is missing or unparseable. -/
def loadMetadata (st : StoreState) (now : Nat) : IndexMetadata :=
  match st.metadataFile with
  | MetaFile.good m => m
  | _ =>
      { collections := []
        lastIndexedAt := now
        totalDocuments := 0
        activeJobs := some []
        completedJobs := some 0 }

/-- StorageManager.saveMetadata: overwrite collections.json. -/
def saveMetadata (st : StoreState) (metadata : IndexMetadata) : StoreState :=
  { st with metadataFile := MetaFile.good metadata }

/-- Options bag of StorageManager.registerCollection (shardCount is accepted
but never read by the body, as in the source). -/
structure RegisterOptions where
  shardCount : Option Nat
  isSharded : Option Bool
  shards : Option (List CollectionShard)
deriving DecidableEq, Repr

/-- StorageManager.registerCollection: overwrite the named collection with a
fresh record (documentCount 0), refresh lastIndexedAt, persist. -/
def registerCollection (st : StoreState) (now : Nat) (name collectionPath : String)
    (options : RegisterOptions) : StoreState :=
  let metadata := loadMetadata st now
  let entry : DocumentCollection :=
    { name := name
      path := collectionPath
      documentCount := 0
      indexedAt := none
      lastModified := none
      isSharded := options.isSharded
      shards := options.shards }
  saveMetadata st
    { metadata with
        collections := writeFile metadata.collections name entry
        lastIndexedAt := now }

/-- Options bag of StorageManager.updateCollectionStats. -/
structure UpdateStatsOptions where
  shards : Option (List CollectionShard)
  isSharded : Option Bool
deriving DecidableEq, Repr

/-- The reduce over Object.values in updateCollectionStats: the sum of the
documentCount fields of every registered collection. -/
def sumCounts (collections : List (String × DocumentCollection)) : Nat :=
  (collections.map (fun p => p.2.documentCount)).sum

/-- StorageManager.updateCollectionStats: if the named collection exists,
set its documentCount and refresh its indexedAt/lastModified timestamps
(and optionally shards/isSharded); then recompute totalDocuments as the sum
over all collections and persist. -/
def updateCollectionStats (st : StoreState) (now : Nat) (name : String)
    (documentCount : Nat) (options : UpdateStatsOptions) : StoreState :=
  let metadata := loadMetadata st now
  let metadata1 :=
    match getFile metadata.collections name with
    | some c =>
        let c1 := { c with documentCount := documentCount
                           indexedAt := some now
                           lastModified := some now }
        let c2 := match options.shards with
          | some s => { c1 with shards := some s }
          | none => c1
        let c3 := match options.isSharded with
          | some b => { c2 with isSharded := some b }
          | none => c2
        { metadata with collections := writeFile metadata.collections name c3 }
    | none => metadata
  saveMetadata st { metadata1 with totalDocuments := sumCounts metadata1.collections }

-- ---------------------------------------------------------------------------
-- Job tracking
-- ---------------------------------------------------------------------------

/-- String.endsWith, modelled structurally: t is a suffix of s exactly
when the reversal of t is a prefix of the reversal of s. -/
def strEndsWith (s t : String) : Bool :=
  List.isPrefixOf t.data.reverse s.data.reverse

/-- A status is terminal when it is completed, failed or cancelled (the
condition tested by updateJob). -/
def isTerminal (s : IndexJobStatus) : Bool :=
  s == IndexJobStatus.completed || s == IndexJobStatus.failed || s == IndexJobStatus.cancelled

/-- StorageManager.saveJob: write the job record at jobsDir/id.json. -/
def saveJob (st : StoreState) (job : IndexJob) : StoreState :=
  { st with jobsDir := writeFile st.jobsDir (job.id ++ ".json") (JobFile.good job) }

/-- StorageManager.loadJob: read and parse jobsDir/jobId.json, null when
missing or unparseable. -/
def loadJob (st : StoreState) (jobId : String) : Option IndexJob :=
  match getFile st.jobsDir (jobId ++ ".json") with
  | some (JobFile.good j) => some j
  | _ => none

/-- StorageManager.addActiveJob: append to metadata.activeJobs unless
already present, then persist. -/
def addActiveJob (st : StoreState) (now : Nat) (jobId : String) : StoreState :=
  let metadata := loadMetadata st now
  let current := metadata.activeJobs.getD []
  let updated := if current.contains jobId then current else current ++ [jobId]
  saveMetadata st { metadata with activeJobs := some updated }

/-- StorageManager.removeActiveJob: filter the id out of
metadata.activeJobs when the list is present, then persist. -/
def removeActiveJob (st : StoreState) (now : Nat) (jobId : String) : StoreState :=
  let metadata := loadMetadata st now
  let metadata1 :=
    match metadata.activeJobs with
    | some l => { metadata with activeJobs := some (l.filter (fun j => j != jobId)) }
    | none => metadata
  saveMetadata st metadata1

/-- StorageManager.createJob: allocate job-(Date.now())-(random suffix),
persist a pending job, register it as active; randomness is an explicit
oracle argument. -/
def createJob (st : StoreState) (now : Nat) (rand : String) (targetPath : String)
    (collectionName : Option String) (incremental : Option Bool)
    (shardName : Option String) : StoreState × String :=
  let jobId := "job-" ++ toString now ++ "-" ++ rand
  let job : IndexJob :=
    { id := jobId
      status := IndexJobStatus.pending
      targetPath := targetPath
      collectionName := collectionName
      totalDocuments := 0
      processedDocuments := 0
      failedDocuments := 0
      startedAt := none
      completedAt := none
      eta := none
      error := none
      incremental := incremental
      skippedDocuments := none
      shardName := shardName }
  let st1 := saveJob st job
  (addActiveJob st1 now jobId, jobId)

/-- The object spread of updateJob: fields present in the update overwrite
the stored job, and the identifier is then forced back to the stored one. -/
def mergeJob (job : IndexJob) (u : IndexJobUpdate) : IndexJob :=
  { id := job.id
    status := u.status.getD job.status
    targetPath := u.targetPath.getD job.targetPath
    collectionName := overlay u.collectionName job.collectionName
    totalDocuments := u.totalDocuments.getD job.totalDocuments
    processedDocuments := u.processedDocuments.getD job.processedDocuments
    failedDocuments := u.failedDocuments.getD job.failedDocuments
    startedAt := overlay u.startedAt job.startedAt
    completedAt := overlay u.completedAt job.completedAt
    eta := overlay u.eta job.eta
    error := overlay u.error job.error
    incremental := overlay u.incremental job.incremental
    skippedDocuments := overlay u.skippedDocuments job.skippedDocuments
    shardName := overlay u.shardName job.shardName }

/-- StorageManager.updateJob: no-op when the job does not load; otherwise
merge, persist, and when the merged status is terminal remove the id from
the active list and bump the completedJobs counter. -/
def updateJob (st : StoreState) (now : Nat) (u : IndexJobUpdate) : StoreState :=
  match loadJob st u.jobId with
  | none => st
  | some job =>
      let updated := mergeJob job u
      let st1 := saveJob st updated
      if isTerminal updated.status then
        let st2 := removeActiveJob st1 now u.jobId
        let metadata := loadMetadata st2 now
        saveMetadata st2 { metadata with completedJobs := some (metadata.completedJobs.getD 0 + 1) }
      else st1

/-- The loop body of StorageManager.listJobs: keep files named *.json that
parse as jobs, skip everything else. -/
def parsedJobs (dir : List (String × JobFile)) : List IndexJob :=
  dir.filterMap (fun nf =>
    if strEndsWith nf.1 ".json" then
      match nf.2 with
      | JobFile.good j => some j
      | JobFile.corrupt => none
    else none)

/-- The sort comparator of listJobs, (a, b) => b.id.localeCompare(a.id):
descending by identifier. -/
def jobDescId (a b : IndexJob) : Prop := b.id ≤ a.id

instance : DecidableRel jobDescId := fun a b =>
  decidable_of_iff (b.id.toList ≤ a.id.toList) String.le_iff_toList_le.symm

instance : IsTotal IndexJob jobDescId :=
  ⟨fun a b => le_total b.id a.id⟩

instance : IsTrans IndexJob jobDescId :=
  ⟨fun _ _ _ h1 h2 => le_trans h2 h1⟩

/-- StorageManager.listJobs: parse every *.json job file, skipping corrupt
ones, and sort descending by identifier. -/
def listJobs (st : StoreState) : List IndexJob :=
  List.insertionSort jobDescId (parsedJobs st.jobsDir)

-- ---------------------------------------------------------------------------
-- Incremental index state
-- ---------------------------------------------------------------------------

/-- The character class kept by the sanitizing regex of
getDocumentStatePath; everything else becomes an underscore. -/
def sanitizeChar (c : Char) : Char :=
  if ('a' ≤ c ∧ c ≤ 'z') ∨ ('A' ≤ c ∧ c ≤ 'Z') ∨ ('0' ≤ c ∧ c ≤ '9') ∨ c = '.' ∨ c = '-'
  then c else '_'

/-- Split a character list on slashes (the separator of POSIX paths). -/
def splitSlash (l : List Char) : List (List Char) :=
  l.foldr (fun c acc =>
    match acc with
    | [] => if c = '/' then [[], []] else [[c]]
    | hd :: tl => if c = '/' then [] :: hd :: tl else (c :: hd) :: tl) [[]]

/-- path.basename for POSIX paths: the last nonempty slash-separated
component (trailing slashes are ignored, as in Node). -/
def posixBasename (p : String) : String :=
  match ((splitSlash p.data).filter (fun s => !s.isEmpty)).getLast? with
  | some c => String.mk c
  | none => p

/-- StorageManager.getDocumentStatePath: the sanitized basename of the
document path, with a .json suffix, used as the state file name. -/
def getDocumentStatePath (docPath : String) : String :=
  String.mk ((posixBasename docPath).data.map sanitizeChar) ++ ".json"

/-- StorageManager.getDocumentIndexState: read and parse the state file,
null when missing or unparseable. -/
def getDocumentIndexState (st : StoreState) (docPath : String) : Option DocumentIndexState :=
  match getFile st.indexStateDir (getDocumentStatePath docPath) with
  | some (StateFile.good s) => some s
  | _ => none

/-- StorageManager.saveDocumentIndexState: write the fingerprint at the
state path derived from its own path field. -/
def saveDocumentIndexState (st : StoreState) (state : DocumentIndexState) : StoreState :=
  { st with indexStateDir :=
      writeFile st.indexStateDir (getDocumentStatePath state.path) (StateFile.good state) }

-- ---------------------------------------------------------------------------
-- Caching
-- ---------------------------------------------------------------------------

/-- Reduce an integer to the 32-bit signed range, as the JS bitwise
operators do (used by both the shift and the final mask of simpleHash). -/
def toInt32 (n : Int) : Int :=
  let m := n % 4294967296
  if m < 2147483648 then m else m - 4294967296

/-- One iteration of the simpleHash loop:
hash = ((hash left-shifted by 5) - hash) + charCode, wrapped to 32 bits. -/
def simpleHashStep (h : Int) (c : Char) : Int :=
  toInt32 (toInt32 (h * 32) - h + (c.toNat : Int))

/-- The digit alphabet of Number.prototype.toString(36): 0-9 then a-z. -/
def base36Digit (n : Nat) : Char :=
  if n < 10 then Char.ofNat (48 + n) else Char.ofNat (87 + n)

/-- Digit accumulator for the base-36 rendering; the fuel argument is a
bound on the digit count (n itself always suffices). -/
def base36Aux : Nat → Nat → List Char → List Char
  | 0, _, acc => acc
  | fuel + 1, n, acc =>
      if n = 0 then acc else base36Aux fuel (n / 36) (base36Digit (n % 36) :: acc)

/-- Math.abs(hash).toString(36). -/
def natToBase36 (n : Nat) : String :=
  if n = 0 then "0" else String.mk (base36Aux (n + 1) n [])

/-- StorageManager.simpleHash: the 31-ary 32-bit string hash, rendered in
base 36 after taking the absolute value. -/
def simpleHash (str : String) : String :=
  natToBase36 (str.data.foldl simpleHashStep 0).natAbs

/-- The collection-or-"all" normalization of getCacheKey (the JS
expression collection or-else "all" also sends the empty string to
"all", because the empty string is falsy). -/
def collectionScope : Option String → String
  | none => "all"
  | some c => if c = "" then "all" else c

/-- StorageManager.getCacheKey: cache-(simpleHash (query ++ scope)).json. -/
def getCacheKey (query : String) (collection : Option String) : String :=
  "cache-" ++ simpleHash (query ++ collectionScope collection) ++ ".json"

/-- StorageManager.deleteCache: unlink the key derived from the query and
collection scope (missing file is ignored). -/
def deleteCache (st : StoreState) (query : String) (collection : Option String) : StoreState :=
  { st with cacheDir := removeFile st.cacheDir (getCacheKey query collection) }

/-- StorageManager.getCache: read the entry at the derived key; null when
missing or unparseable; when Date.now() exceeds the stored expiry, evict
and return null; otherwise increment and persist the hit counter and
return the updated entry. -/
def getCache (st : StoreState) (now : Nat) (query : String) (collection : Option String) :
    StoreState × Option SearchCache :=
  match getFile st.cacheDir (getCacheKey query collection) with
  | some (CacheFile.good cache) =>
      if now > cache.ttl then
        (deleteCache st query collection, none)
      else
        let cache1 := { cache with hitCount := cache.hitCount + 1 }
        ({ st with cacheDir :=
             writeFile st.cacheDir (getCacheKey query collection) (CacheFile.good cache1) },
         some cache1)
  | _ => (st, none)

/-- StorageManager.setCache: store a fresh entry at the derived key with
expiry now + ttl and hit counter 0, overwriting any previous entry. -/
def setCache (st : StoreState) (now : Nat) (query : String) (results : List SearchResult)
    (collection : Option String) (ttl : Nat) : StoreState :=
  let cache : SearchCache :=
    { query := query
      collection := collection
      results := results
      cachedAt := now
      hitCount := 0
      ttl := now + ttl
      resultCount := results.length }
  { st with cacheDir :=
      writeFile st.cacheDir (getCacheKey query collection) (CacheFile.good cache) }

/-- CacheStats from types.ts.  hitRate is modelled as an exact rational;
the sizeBytes diagnostic is not modelled (see the file header). -/
structure CacheStats where
  totalEntries : Nat
  totalHits : Nat
  totalMisses : Nat
  hitRate : Rat
  oldestEntry : Option Nat
  newestEntry : Option Nat
deriving Repr

/-- The *.json cache files that parse, in directory order (the loop of
getCacheStats skips corrupt files). -/
def parsedCaches (dir : List (String × CacheFile)) : List SearchCache :=
  (dir.filter (fun nf => strEndsWith nf.1 ".json")).filterMap (fun nf =>
    match nf.2 with
    | CacheFile.good c => some c
    | CacheFile.corrupt => none)

/-- StorageManager.getCacheStats: sum the hit counters over the parseable
entries, estimate misses as max 0 (hits * 2), and report
hits / (hits + misses) as the hit rate (0 when both are zero); oldest and
newest are the extreme cachedAt stamps. -/
def getCacheStats (st : StoreState) : CacheStats :=
  let entries := parsedCaches st.cacheDir
  let totalHits := (entries.map SearchCache.hitCount).sum
  let totalMisses := max 0 (totalHits * 2)
  let hitRate : Rat :=
    if totalHits + totalMisses > 0 then
      (totalHits : Rat) / ((totalHits : Rat) + (totalMisses : Rat))
    else 0
  { totalEntries := (st.cacheDir.filter (fun nf => strEndsWith nf.1 ".json")).length
    totalHits := totalHits
    totalMisses := totalMisses
    hitRate := hitRate
    oldestEntry := entries.foldl (fun acc c =>
      match acc with
      | none => some c.cachedAt
      | some o => if c.cachedAt < o then some c.cachedAt else some o) none
    newestEntry := entries.foldl (fun acc c =>
      match acc with
      | none => some c.cachedAt
      | some o => if o < c.cachedAt then some c.cachedAt else some o) none }

/-- The empty store: no metadata file, empty directories. -/
def emptyStore : StoreState :=
  { metadataFile := MetaFile.missing
    jobsDir := []
    cacheDir := []
    indexStateDir := [] }

/-- An update object carrying no fields besides the job id. -/
def blankUpdate (jobId : String) : IndexJobUpdate :=
  { jobId := jobId
    status := none
    targetPath := none
    collectionName := none
    totalDocuments := none
    processedDocuments := none
    failedDocuments := none
    startedAt := none
    completedAt := none
    eta := none
    error := none
    incremental := none
    skippedDocuments := none
    shardName := none }

/-- A concrete job already in the terminal status completed. -/
def C1job : IndexJob :=
  { id := "j"
    status := IndexJobStatus.completed
    targetPath := "/t"
    collectionName := none
    totalDocuments := 0
    processedDocuments := 0
    failedDocuments := 0
    startedAt := none
    completedAt := none
    eta := none
    error := none
    incremental := none
    skippedDocuments := none
    shardName := none }

/-- A store holding only the completed job C1job. -/
def C1store : StoreState :=
  { emptyStore with jobsDir := [("j.json", JobFile.good C1job)] }

/-- An update that sets the status of job j back to running. -/
def C1update : IndexJobUpdate :=
  { blankUpdate "j" with status := some IndexJobStatus.running }

/-- A fingerprint recorded for /b/doc.md. -/
def C4old : DocumentIndexState :=
  { path := "/b/doc.md"
    indexedAt := 1
    fileModifiedAt := 1
    hash := "h1"
    size := 7
    lastIndexedHash := none }

/-- A fingerprint for /a/doc.md, a distinct path with the same basename. -/
def C4new : DocumentIndexState :=
  { path := "/a/doc.md"
    indexedAt := 2
    fileModifiedAt := 2
    hash := "h2"
    size := 9
    lastIndexedHash := none }

/-- A store whose index-state directory holds the record of /b/doc.md. -/
def C4store : StoreState :=
  { emptyStore with
      indexStateDir := [(getDocumentStatePath C4old.path, StateFile.good C4old)] }

/-- A job whose identifier embeds the earlier time component 100. -/
def C6jobA : IndexJob :=
  { C1job with id := "job-100-abc", status := IndexJobStatus.pending }

/-- A job whose identifier embeds the later time component 200. -/
def C6jobB : IndexJob :=
  { C1job with id := "job-200-xyz", status := IndexJobStatus.pending }

/-- A store holding the two jobs C6jobA and C6jobB. -/
def C6store : StoreState :=
  { emptyStore with
      jobsDir := [("job-100-abc.json", JobFile.good C6jobA),
                  ("job-200-xyz.json", JobFile.good C6jobB)] }

/-- A registered collection named docs with three documents. -/
def C7col : DocumentCollection :=
  { name := "docs"
    path := "/d"
    documentCount := 3
    indexedAt := none
    lastModified := none
    shards := none
    isSharded := none }

/-- A store whose metadata registers C7col, with a consistent total. -/
def C7store : StoreState :=
  { emptyStore with
      metadataFile := MetaFile.good
        { collections := [("docs", C7col)]
          lastIndexedAt := 0
          totalDocuments := 3
          activeJobs := some []
          completedJobs := some 0 } }

/-- Empty options bag for updateCollectionStats. -/
def noStatsOpts : UpdateStatsOptions :=
  { shards := none, isSharded := none }

/-- Empty options bag for registerCollection. -/
def noRegOpts : RegisterOptions :=
  { shardCount := none, isSharded := none, shards := none }

/-- A store whose metadata file is present with lastIndexedAt 5. -/
def C9store : StoreState :=
  { emptyStore with
      metadataFile := MetaFile.good
        { collections := []
          lastIndexedAt := 5
          totalDocuments := 0
          activeJobs := some []
          completedJobs := some 0 } }

-- ---------------------------------------------------------------------------
-- Generic file-store lemmas
-- ---------------------------------------------------------------------------

theorem getFile_writeFile_self {α : Type} (dir : List (String × α)) (k : String) (v : α) :
    getFile (writeFile dir k v) k = some v := by
  induction dir with
  | nil => simp [writeFile, getFile]
  | cons hd tl ih =>
      obtain ⟨k', w⟩ := hd
      by_cases h : k' = k
      · simp [writeFile, h, getFile]
      · simp [writeFile, h, getFile, ih]

theorem getFile_writeFile_ne {α : Type} (dir : List (String × α)) (k k' : String) (v : α)
    (h : k' ≠ k) : getFile (writeFile dir k v) k' = getFile dir k' := by
  have hk : k ≠ k' := Ne.symm h
  induction dir with
  | nil => simp [writeFile, getFile, hk]
  | cons hd tl ih =>
      obtain ⟨k0, w⟩ := hd
      by_cases h0 : k0 = k
      · subst h0
        simp [writeFile, getFile, hk]
      · simp [writeFile, h0, getFile, ih]

theorem getFile_eq_none_of_not_mem {α : Type} (dir : List (String × α)) (k : String)
    (h : k ∉ dir.map Prod.fst) : getFile dir k = none := by
  induction dir with
  | nil => simp [getFile]
  | cons hd tl ih =>
      obtain ⟨k0, w⟩ := hd
      simp only [List.map_cons, List.mem_cons, not_or] at h
      simp [getFile, Ne.symm h.1, ih h.2]

theorem map_fst_writeFile {α : Type} (dir : List (String × α)) (k : String) (v : α) :
    (writeFile dir k v).map Prod.fst =
      if k ∈ dir.map Prod.fst then dir.map Prod.fst else dir.map Prod.fst ++ [k] := by
  induction dir with
  | nil => simp [writeFile]
  | cons hd tl ih =>
      obtain ⟨k0, w⟩ := hd
      by_cases h0 : k0 = k
      · subst h0
        simp [writeFile]
      · have hk : ¬ k = k0 := fun h' => h0 h'.symm
        by_cases hmem : k ∈ tl.map Prod.fst
        · simp [writeFile, h0, ih, hmem, hk]
        · simp [writeFile, h0, ih, hmem, hk]

theorem keys_nodup_writeFile {α : Type} (dir : List (String × α)) (k : String) (v : α)
    (h : (dir.map Prod.fst).Nodup) : ((writeFile dir k v).map Prod.fst).Nodup := by
  rw [map_fst_writeFile]
  by_cases hk : k ∈ dir.map Prod.fst
  · simpa [hk] using h
  · simp [hk, List.nodup_append, h]

theorem getFile_removeFile_self {α : Type} (dir : List (String × α)) (k : String)
    (h : (dir.map Prod.fst).Nodup) : getFile (removeFile dir k) k = none := by
  induction dir with
  | nil => simp [removeFile, getFile]
  | cons hd tl ih =>
      obtain ⟨k0, w⟩ := hd
      simp only [List.map_cons, List.nodup_cons] at h
      by_cases h0 : k0 = k
      · subst h0
        simp only [removeFile, if_pos rfl]
        exact getFile_eq_none_of_not_mem tl k0 h.1
      · simp [removeFile, h0, getFile, ih h.2]

-- ---------------------------------------------------------------------------
-- Evaluation lemmas for the store operations
-- ---------------------------------------------------------------------------

theorem loadMetadata_saveJob (st : StoreState) (job : IndexJob) (now : Nat) :
    loadMetadata (saveJob st job) now = loadMetadata st now := rfl

theorem loadMetadata_saveMetadata (st : StoreState) (m : IndexMetadata) (now : Nat) :
    loadMetadata (saveMetadata st m) now = m := rfl

theorem loadJob_inv {st : StoreState} {jobId : String} {job : IndexJob}
    (h : loadJob st jobId = some job) :
    getFile st.jobsDir (jobId ++ ".json") = some (JobFile.good job) := by
  unfold loadJob at h
  rcases hg : getFile st.jobsDir (jobId ++ ".json") with _ | jf
  · rw [hg] at h
    exact absurd h (by simp)
  · rcases jf with j | _
    · rw [hg] at h
      simp only [Option.some.injEq] at h
      rw [h]
    · rw [hg] at h
      exact absurd h (by simp)

theorem append_json_inj {a b : String} (h : a ++ ".json" = b ++ ".json") : a = b := by
  have hd : a.data ++ (".json" : String).data = b.data ++ (".json" : String).data := by
    have h2 := congrArg String.data h
    simpa [String.data_append] using h2
  exact String.ext (List.append_cancel_right hd)

theorem updateJob_found (st : StoreState) (now : Nat) (u : IndexJobUpdate) (job : IndexJob)
    (h : loadJob st u.jobId = some job) :
    updateJob st now u =
      (if isTerminal (mergeJob job u).status then
        saveMetadata (removeActiveJob (saveJob st (mergeJob job u)) now u.jobId)
          { loadMetadata (removeActiveJob (saveJob st (mergeJob job u)) now u.jobId) now with
              completedJobs := some
                ((loadMetadata (removeActiveJob (saveJob st (mergeJob job u)) now u.jobId) now).completedJobs.getD 0
                  + 1) }
      else saveJob st (mergeJob job u)) := by
  unfold updateJob
  rw [h]

-- ---------------------------------------------------------------------------
-- Claims
-- ---------------------------------------------------------------------------

/-- C10: for a job id with no stored record, updateJob is a complete no-op:
it returns without error, writes nothing, and the whole store (job records,
active-jobs set, completed-jobs counter, all other state) is unchanged. -/
theorem claim_C10 (st : StoreState) (now : Nat) (u : IndexJobUpdate)
    (h : loadJob st u.jobId = none) : updateJob st now u = st := by
  unfold updateJob
  rw [h]

/-- Witness for claim_C10 at a concrete input: the empty store has no
record for the id missing, and the update leaves the store untouched. -/
theorem claim_C10_witness :
    loadJob emptyStore (blankUpdate "missing").jobId = none
    ∧ updateJob emptyStore 0 (blankUpdate "missing") = emptyStore :=
  ⟨rfl, claim_C10 emptyStore 0 (blankUpdate "missing") rfl⟩

/-- C8: the cache statistics report totalMisses as exactly twice the sum of
the stored hit counters, and a hit rate of exactly one third when that sum
is positive and 0 when it is zero: both are fixed functions of the hit
counters, not of actual miss events.  (Real-number division is modelled by
exact rational arithmetic.) -/
theorem claim_C8 (st : StoreState) :
    (getCacheStats st).totalHits = ((parsedCaches st.cacheDir).map SearchCache.hitCount).sum
    ∧ (getCacheStats st).totalMisses = 2 * (getCacheStats st).totalHits
    ∧ (getCacheStats st).hitRate = (if 0 < (getCacheStats st).totalHits then (1 : Rat) / 3 else 0) := by
  refine ⟨rfl, ?_, ?_⟩
  · simp only [getCacheStats]
    omega
  · have hgen : ∀ h : Nat,
        (if h + max 0 (h * 2) > 0 then (h : Rat) / ((h : Rat) + ((max 0 (h * 2) : Nat) : Rat)) else 0)
          = (if 0 < h then (1 : Rat) / 3 else 0) := by
      intro h
      rcases Nat.eq_zero_or_pos h with h0 | hpos
      · subst h0
        norm_num
      · have hq : (h : Rat) ≠ 0 := by
          exact_mod_cast Nat.pos_iff_ne_zero.mp hpos
        have hmax : max 0 (h * 2) = h * 2 := by omega
        rw [hmax]
        have hcond : h + h * 2 > 0 := by omega
        rw [if_pos hcond, if_pos hpos]
        push_cast
        rw [show ((h : Rat) + (h : Rat) * 2) = 3 * (h : Rat) by ring]
        rw [div_eq_div_iff (mul_ne_zero (by norm_num) hq) (by norm_num)]
        ring
    simp only [getCacheStats]
    exact hgen _

/-- C4 is corrected: the index-state store does not keep one record per
document path but one record per sanitized basename.  The distinct paths
/a/doc.md and /b/doc.md share the state file doc.md.json, so persisting the
fingerprint of /a/doc.md overwrites the record previously returned for
/b/doc.md, contradicting the claim that a put never changes the record of
a different path. -/
theorem claim_C4_counterexample :
    ("/a/doc.md" : String) ≠ "/b/doc.md"
    ∧ (getDocumentIndexState C4store "/b/doc.md").map DocumentIndexState.hash = some "h1"
    ∧ (getDocumentIndexState (saveDocumentIndexState C4store C4new) "/b/doc.md").map
        DocumentIndexState.hash = some "h2" :=
  ⟨by decide, by rfl, by rfl⟩

/-- C4 as amended: the Index-State Store keeps one record per state-file
key (the sanitized basename of the document path): get(f.path) after
put(f) returns f, and a put leaves the record of every path whose state
file differs unchanged; distinct paths sharing a sanitized basename share
one record and overwrite each other. -/
theorem claim_C4_amended (st : StoreState) (f : DocumentIndexState) (p : String) :
    getDocumentIndexState (saveDocumentIndexState st f) f.path = some f
    ∧ (getDocumentStatePath p ≠ getDocumentStatePath f.path →
        getDocumentIndexState (saveDocumentIndexState st f) p = getDocumentIndexState st p) := by
  constructor
  · simp [getDocumentIndexState, saveDocumentIndexState, getFile_writeFile_self]
  · intro h
    simp only [getDocumentIndexState, saveDocumentIndexState]
    rw [getFile_writeFile_ne _ _ _ _ h]

/-- Witness for claim_C4_amended: a put for /a/doc.md leaves the record of
/x/other.txt (a different state-file key) unchanged. -/
theorem claim_C4_witness :
    getDocumentStatePath "/x/other.txt" ≠ getDocumentStatePath "/a/doc.md"
    ∧ getDocumentIndexState (saveDocumentIndexState C4store C4new) "/x/other.txt"
        = getDocumentIndexState C4store "/x/other.txt" :=
  ⟨by decide, (claim_C4_amended C4store C4new "/x/other.txt").2 (by decide)⟩

/-- C3 is corrected: the cache key is a 32-bit hash of the query text
concatenated with the collection scope, and getCache never checks that the
stored entry's query/collection match the request, so two different
collection scopes with the same query text can map to the same key and
then a get for one scope returns the other scope's payload.  Concretely
the scopes Aa and BB collide (the 31-ary hash gives 31*65+97 = 31*66+66),
so after put("q", ["r"]) under scope Aa, get("q") under scope BB returns
["r"] instead of the absent the claim requires. -/
theorem claim_C3_counterexample :
    (some "Aa" : Option String) ≠ some "BB"
    ∧ ((getCache (setCache emptyStore 0 "q" ["r"] (some "Aa") 5) 1 "q" (some "BB")).2).map
        SearchCache.results = some ["r"] :=
  ⟨by decide, by rfl⟩

/-- C3 as amended: before expiry, get(Q, C) after put(Q, C, R, ttl)
returns exactly R; and for every collection scope C2 whose derived cache
key differs from C's, the result of get(Q, C2) is unaffected by that put.
Distinct scopes usually have distinct keys, but the key is a 32-bit hash
of the concatenation query ++ scope (with the empty and absent scopes both
normalized to all), so distinct scopes can share a key and then share one
cache record. -/
theorem claim_C3_amended (st : StoreState) (query : String) (collection collection2 : Option String)
    (results : List SearchResult) (ttl created now : Nat) :
    (now ≤ created + ttl →
      ((getCache (setCache st created query results collection ttl) now query collection).2).map
          SearchCache.results = some results)
    ∧ (getCacheKey query collection2 ≠ getCacheKey query collection →
      (getCache (setCache st created query results collection ttl) now query collection2).2
        = (getCache st now query collection2).2) := by
  constructor
  · intro hnow
    simp [getCache, setCache, getFile_writeFile_self, Nat.not_lt.mpr hnow]
  · intro hne
    rcases hg : getFile st.cacheDir (getCacheKey query collection2) with _ | cf
    · simp [getCache, setCache, getFile_writeFile_ne _ _ _ _ hne, hg]
    · rcases cf with c | _
      · by_cases ht : now > c.ttl <;>
          simp [getCache, setCache, getFile_writeFile_ne _ _ _ _ hne, hg, ht]
      · simp [getCache, setCache, getFile_writeFile_ne _ _ _ _ hne, hg]

/-- Witness for claim_C3_amended: distinct scopes x and y have distinct
keys; after the put under x, the get under x returns the payload and the
get under y is unchanged. -/
theorem claim_C3_witness :
    (3 ≤ 0 + 5 ∧ getCacheKey "q" (some "y") ≠ getCacheKey "q" (some "x"))
    ∧ ((getCache (setCache emptyStore 0 "q" ["r"] (some "x") 5) 3 "q" (some "x")).2).map
        SearchCache.results = some ["r"]
    ∧ (getCache (setCache emptyStore 0 "q" ["r"] (some "x") 5) 3 "q" (some "y")).2
        = (getCache emptyStore 3 "q" (some "y")).2 :=
  ⟨⟨by decide, by decide⟩,
   (claim_C3_amended emptyStore "q" (some "x") (some "y") ["r"] 5 0 3).1 (by decide),
   (claim_C3_amended emptyStore "q" (some "x") (some "y") ["r"] 5 0 3).2 (by decide)⟩

/-- C2 is corrected at the expiry boundary: the source eviction test is
now > expiresAt (strict), so a read performed exactly at now = created+t
still returns the payload and counts a hit, where the claim requires
absent.  Concretely: put at time 0 with ttl 5, get at time 5 returns the
stored payload. -/
theorem claim_C2_counterexample :
    (5 : Nat) ≥ 0 + 5
    ∧ ((getCache (setCache emptyStore 0 "q" ["r"] none 5) 5 "q" none).2).map
        SearchCache.results = some ["r"] :=
  ⟨by decide, by rfl⟩

/-- C2 as amended: for an entry created by put at time created with TTL t,
a get at now <= created+t returns the stored payload with the persisted
hit counter incremented from 0 to exactly 1, while a get at
now > created+t returns absent, removes the entry, and every subsequent
get of that key returns absent until a new put.  (The directory hypothesis
says file names are unique, as they are on a real filesystem.) -/
theorem claim_C2_amended (st : StoreState) (query : String) (collection : Option String)
    (results : List SearchResult) (ttl created now : Nat)
    (hwf : (st.cacheDir.map Prod.fst).Nodup) :
    (now ≤ created + ttl →
      (getCache (setCache st created query results collection ttl) now query collection).2
          = some { query := query, collection := collection, results := results,
                   cachedAt := created, hitCount := 1, ttl := created + ttl,
                   resultCount := results.length }
      ∧ getFile
          (getCache (setCache st created query results collection ttl) now query collection).1.cacheDir
          (getCacheKey query collection)
        = some (CacheFile.good
            { query := query, collection := collection, results := results,
              cachedAt := created, hitCount := 1, ttl := created + ttl,
              resultCount := results.length }))
    ∧ (created + ttl < now →
      (getCache (setCache st created query results collection ttl) now query collection).2 = none
      ∧ ∀ later : Nat,
          getCache
            (getCache (setCache st created query results collection ttl) now query collection).1
            later query collection
          = ((getCache (setCache st created query results collection ttl) now query collection).1,
             none)) := by
  constructor
  · intro hnow
    constructor
    · simp [getCache, setCache, getFile_writeFile_self, Nat.not_lt.mpr hnow]
    · simp [getCache, setCache, getFile_writeFile_self, Nat.not_lt.mpr hnow]
  · intro hnow
    have hexp : (setCache st created query results collection ttl).cacheDir
        = writeFile st.cacheDir (getCacheKey query collection)
            (CacheFile.good { query := query, collection := collection, results := results,
                              cachedAt := created, hitCount := 0, ttl := created + ttl,
                              resultCount := results.length }) := rfl
    have hnone : getFile
        (removeFile (setCache st created query results collection ttl).cacheDir
          (getCacheKey query collection))
        (getCacheKey query collection) = none := by
      rw [hexp]
      exact getFile_removeFile_self _ _ (keys_nodup_writeFile _ _ _ hwf)
    constructor
    · simp [getCache, setCache, getFile_writeFile_self, hnow]
    · intro later
      have hstate : (getCache (setCache st created query results collection ttl) now query collection).1
          = deleteCache (setCache st created query results collection ttl) query collection := by
        simp [getCache, setCache, getFile_writeFile_self, hnow]
      rw [hstate]
      have hnone2 : getFile (deleteCache (setCache st created query results collection ttl)
          query collection).cacheDir (getCacheKey query collection) = none := hnone
      simp [getCache, hnone2]

/-- Witness for claim_C2_amended: in the empty store (unique file names),
a put at 0 with TTL 5 followed by a get at 3 yields the payload with hit
counter 1. -/
theorem claim_C2_witness :
    ((emptyStore.cacheDir.map Prod.fst).Nodup ∧ 3 ≤ 0 + 5)
    ∧ (getCache (setCache emptyStore 0 "q" ["r"] none 5) 3 "q" none).2
        = some { query := "q", collection := none, results := ["r"], cachedAt := 0,
                 hitCount := 1, ttl := 5, resultCount := 1 } :=
  ⟨⟨by decide, by decide⟩,
   ((claim_C2_amended emptyStore "q" none ["r"] 5 0 3 (by decide)).1 (by decide)).1⟩

theorem sumCounts_writeFile (m : List (String × DocumentCollection)) (k : String)
    (c v : DocumentCollection) (h : getFile m k = some c) :
    sumCounts (writeFile m k v) + c.documentCount = sumCounts m + v.documentCount := by
  induction m with
  | nil => simp [getFile] at h
  | cons hd tl ih =>
      obtain ⟨k0, w⟩ := hd
      by_cases h0 : k0 = k
      · subst h0
        simp [getFile] at h
        subst h
        simp [writeFile, sumCounts]
        omega
      · simp only [getFile, if_neg h0] at h
        have hrec := ih h
        simp only [sumCounts] at hrec
        simp [writeFile, h0, sumCounts]
        omega

/-- C5: updateJob on an existing job merges the update into the stored job
(the identifier is preserved), re-persists the merged record, and exactly
when the merged status is terminal it removes that job id from the
active-jobs list and increments the completed-jobs counter by 1 (an absent
counter reads as 0); a non-terminal merged status leaves the metadata file
untouched. -/
theorem claim_C5 (st : StoreState) (now : Nat) (u : IndexJobUpdate) (job : IndexJob)
    (h : loadJob st u.jobId = some job) :
    (mergeJob job u).id = job.id
    ∧ getFile (updateJob st now u).jobsDir (job.id ++ ".json")
        = some (JobFile.good (mergeJob job u))
    ∧ (isTerminal (mergeJob job u).status = true →
        loadMetadata (updateJob st now u) now
          = { loadMetadata st now with
                activeJobs := (loadMetadata st now).activeJobs.map
                  (List.filter (fun j => j != u.jobId))
                completedJobs := some ((loadMetadata st now).completedJobs.getD 0 + 1) })
    ∧ (isTerminal (mergeJob job u).status = false →
        (updateJob st now u).metadataFile = st.metadataFile) := by
  refine ⟨rfl, ?_, ?_, ?_⟩
  · rw [updateJob_found st now u job h]
    by_cases hterm : isTerminal (mergeJob job u).status
    · rw [if_pos hterm]
      exact getFile_writeFile_self st.jobsDir (job.id ++ ".json") (JobFile.good (mergeJob job u))
    · rw [if_neg hterm]
      exact getFile_writeFile_self st.jobsDir (job.id ++ ".json") (JobFile.good (mergeJob job u))
  · intro hterm
    rw [updateJob_found st now u job h, if_pos hterm]
    rw [loadMetadata_saveMetadata]
    unfold removeActiveJob
    rw [loadMetadata_saveMetadata, loadMetadata_saveJob]
    rcases hA : (loadMetadata st now).activeJobs with _ | l
    · simp [hA]
    · simp [hA]
  · intro hterm
    rw [updateJob_found st now u job h, if_neg (by simp [hterm])]
    rfl

/-- Witness for claim_C5: in C1store the stored job j exists and is
completed, so a field-free update re-persists it, leaves the (empty)
active list without j, and bumps the completed counter from 0 to 1. -/
theorem claim_C5_witness :
    loadJob C1store "j" = some C1job
    ∧ isTerminal (mergeJob C1job (blankUpdate "j")).status = true
    ∧ loadMetadata (updateJob C1store 0 (blankUpdate "j")) 0
        = { loadMetadata C1store 0 with
              activeJobs := (loadMetadata C1store 0).activeJobs.map
                (List.filter (fun j => j != "j"))
              completedJobs := some ((loadMetadata C1store 0).completedJobs.getD 0 + 1) } :=
  ⟨rfl, rfl, (claim_C5 C1store 0 (blankUpdate "j") C1job rfl).2.2.1 rfl⟩

/-- C7: after updateCollectionStats the persisted totalDocuments equals
the sum of documentCount over all registered collections, and when the
named collection exists its record now carries the given documentCount
with indexedAt and lastModified refreshed to now (shards and isSharded
overridden exactly when the options carry them). -/
theorem claim_C7 (st : StoreState) (now : Nat) (name : String) (documentCount : Nat)
    (options : UpdateStatsOptions) :
    (loadMetadata (updateCollectionStats st now name documentCount options) now).totalDocuments
      = sumCounts
          (loadMetadata (updateCollectionStats st now name documentCount options) now).collections
    ∧ (∀ c, getFile (loadMetadata st now).collections name = some c →
        getFile
            (loadMetadata (updateCollectionStats st now name documentCount options) now).collections
            name
          = some { c with
                     documentCount := documentCount
                     indexedAt := some now
                     lastModified := some now
                     shards := (match options.shards with
                       | some s => some s
                       | none => c.shards)
                     isSharded := (match options.isSharded with
                       | some b => some b
                       | none => c.isSharded) }) := by
  constructor
  · rfl
  · intro c hc
    simp only [updateCollectionStats, loadMetadata_saveMetadata, hc]
    rcases hs : options.shards with _ | s <;>
      rcases hb : options.isSharded with _ | b <;>
        simp [hs, hb, getFile_writeFile_self]

/-- Witness for claim_C7: updating the docs collection of C7store to 7
documents rewrites its record with refreshed timestamps. -/
theorem claim_C7_witness :
    getFile (loadMetadata C7store 9).collections "docs" = some C7col
    ∧ getFile (loadMetadata (updateCollectionStats C7store 9 "docs" 7 noStatsOpts) 9).collections
          "docs"
        = some { C7col with documentCount := 7, indexedAt := some 9, lastModified := some 9 } :=
  ⟨rfl, (claim_C7 C7store 9 "docs" 7 noStatsOpts).2 C7col rfl⟩

/-- C9 is corrected: registerCollection does not leave everything else in
the metadata unchanged, because it refreshes the metadata's lastIndexedAt
timestamp.  Concretely, in a store whose metadata has lastIndexedAt 5,
registering a collection at time 9 leaves lastIndexedAt 9. -/
theorem claim_C9_counterexample :
    (loadMetadata C9store 9).lastIndexedAt = 5
    ∧ (loadMetadata (registerCollection C9store 9 "c" "/p" noRegOpts) 9).lastIndexedAt = 9 :=
  ⟨rfl, rfl⟩

/-- C9 as amended: registerCollection sets the named collection to a fresh
record with documentCount 0 (overwriting any existing record), refreshes
the metadata's lastIndexedAt timestamp, and leaves every other
collection's record, the aggregate totalDocuments, the active-jobs list
and the completed-jobs counter unchanged; in particular re-registering an
existing collection with positive documentCount leaves the stale aggregate
total strictly above the sum of the per-collection counts. -/
theorem claim_C9_amended (st : StoreState) (now : Nat) (name collectionPath : String)
    (options : RegisterOptions) :
    getFile (loadMetadata (registerCollection st now name collectionPath options) now).collections
        name
      = some { name := name, path := collectionPath, documentCount := 0, indexedAt := none,
               lastModified := none, shards := options.shards, isSharded := options.isSharded }
    ∧ (∀ other, other ≠ name →
        getFile
            (loadMetadata (registerCollection st now name collectionPath options) now).collections
            other
          = getFile (loadMetadata st now).collections other)
    ∧ (loadMetadata (registerCollection st now name collectionPath options) now).totalDocuments
        = (loadMetadata st now).totalDocuments
    ∧ (loadMetadata (registerCollection st now name collectionPath options) now).activeJobs
        = (loadMetadata st now).activeJobs
    ∧ (loadMetadata (registerCollection st now name collectionPath options) now).completedJobs
        = (loadMetadata st now).completedJobs
    ∧ (loadMetadata (registerCollection st now name collectionPath options) now).lastIndexedAt = now
    ∧ (∀ c, getFile (loadMetadata st now).collections name = some c →
        0 < c.documentCount →
        (loadMetadata st now).totalDocuments = sumCounts (loadMetadata st now).collections →
        sumCounts
            (loadMetadata (registerCollection st now name collectionPath options) now).collections
          < (loadMetadata
              (registerCollection st now name collectionPath options) now).totalDocuments) := by
  refine ⟨?_, ?_, rfl, rfl, rfl, rfl, ?_⟩
  · simp only [registerCollection, loadMetadata_saveMetadata]
    exact getFile_writeFile_self _ _ _
  · intro other hother
    simp only [registerCollection, loadMetadata_saveMetadata]
    exact getFile_writeFile_ne _ _ _ _ hother
  · intro c hc hpos htot
    have hsum : sumCounts (writeFile (loadMetadata st now).collections name
          { name := name, path := collectionPath, documentCount := 0, indexedAt := none,
            lastModified := none, shards := options.shards, isSharded := options.isSharded })
          + c.documentCount
        = sumCounts (loadMetadata st now).collections + 0 :=
      sumCounts_writeFile (loadMetadata st now).collections name c
        { name := name, path := collectionPath, documentCount := 0, indexedAt := none,
          lastModified := none, shards := options.shards, isSharded := options.isSharded } hc
    simp only [registerCollection, loadMetadata_saveMetadata]
    omega

/-- Witness for claim_C9_amended: re-registering the docs collection of
C7store (3 documents, consistent total 3) keeps an unrelated name absent
as before, and leaves the stale total 3 above the new per-collection sum
0. -/
theorem claim_C9_witness :
    (("other" : String) ≠ "docs"
      ∧ getFile (loadMetadata C7store 9).collections "docs" = some C7col
      ∧ 0 < C7col.documentCount
      ∧ (loadMetadata C7store 9).totalDocuments = sumCounts (loadMetadata C7store 9).collections)
    ∧ getFile (loadMetadata (registerCollection C7store 9 "docs" "/d" noRegOpts) 9).collections
          "other"
        = getFile (loadMetadata C7store 9).collections "other"
    ∧ sumCounts (loadMetadata (registerCollection C7store 9 "docs" "/d" noRegOpts) 9).collections
        < (loadMetadata (registerCollection C7store 9 "docs" "/d" noRegOpts) 9).totalDocuments :=
  ⟨⟨by decide, rfl, by decide, rfl⟩,
   (claim_C9_amended C7store 9 "docs" "/d" noRegOpts).2.1 "other" (by decide),
   (claim_C9_amended C7store 9 "docs" "/d" noRegOpts).2.2.2.2.2.2 C7col rfl (by decide) rfl⟩

/-- C1 is corrected: the Job Store does not enforce terminal finality.
updateJob overwrites the stored status with whatever status the update
carries, so a later update can move a job out of a terminal state.
Concretely, the stored job j is completed, and an update carrying status
running is applied and observed: the status sequence completed-then-running
is not a subsequence of pending, running, then one terminal state. -/
theorem claim_C1_counterexample :
    (loadJob C1store "j").map IndexJob.status = some IndexJobStatus.completed
    ∧ (loadJob (updateJob C1store 0 C1update) "j").map IndexJob.status
        = some IndexJobStatus.running :=
  ⟨rfl, rfl⟩

/-- C1 as amended: terminal statuses persist only by caller discipline:
once the stored job's status is terminal, an update whose status field is
absent or equal to the stored status leaves the observed status unchanged,
but nothing in the store prevents an update from carrying a different
status (see the counterexample). -/
theorem claim_C1_amended (st : StoreState) (now : Nat) (u : IndexJobUpdate) (job : IndexJob)
    (h : loadJob st u.jobId = some job)
    (hterm : isTerminal job.status = true)
    (hstat : u.status = none ∨ u.status = some job.status) :
    (loadJob (updateJob st now u) u.jobId).map IndexJob.status = some job.status := by
  have hms : (mergeJob job u).status = job.status := by
    rcases hstat with h1 | h1 <;> simp [mergeJob, h1]
  have hfile := loadJob_inv h
  rw [updateJob_found st now u job h]
  have hjobs : ∀ st2 : StoreState,
      st2.jobsDir = writeFile st.jobsDir (job.id ++ ".json") (JobFile.good (mergeJob job u)) →
      (loadJob st2 u.jobId).map IndexJob.status = some job.status := by
    intro st2 hdir
    by_cases hid : job.id = u.jobId
    · rw [← hid]
      unfold loadJob
      rw [hdir, getFile_writeFile_self]
      simp [hms]
    · have hkey : u.jobId ++ ".json" ≠ job.id ++ ".json" := by
        intro hk
        exact hid (append_json_inj hk).symm
      unfold loadJob
      rw [hdir, getFile_writeFile_ne _ _ _ _ hkey, hfile]
      rfl
  by_cases hterm2 : isTerminal (mergeJob job u).status
  · rw [if_pos hterm2]
    exact hjobs _ rfl
  · rw [if_neg hterm2]
    exact hjobs _ rfl

/-- Witness for claim_C1_amended: the stored job j is completed and a
field-free update leaves the observed status completed. -/
theorem claim_C1_witness :
    (loadJob C1store "j" = some C1job
      ∧ isTerminal C1job.status = true
      ∧ (blankUpdate "j").status = none)
    ∧ (loadJob (updateJob C1store 0 (blankUpdate "j")) "j").map IndexJob.status
        = some C1job.status :=
  ⟨⟨rfl, rfl, rfl⟩,
   claim_C1_amended C1store 0 (blankUpdate "j") C1job rfl rfl (Or.inl rfl)⟩

theorem sorted_desc_pos {L : List IndexJob} (hs : List.Sorted jobDescId L)
    (i j : Fin L.length) (hlt : (L.get i).id < (L.get j).id) : (j : Nat) < (i : Nat) := by
  rcases lt_trichotomy (i : Nat) (j : Nat) with hij | hij | hij
  · exfalso
    have hrel : jobDescId (L.get i) (L.get j) := hs.rel_get_of_lt (Fin.lt_def.mpr hij)
    exact absurd hlt (not_lt.mpr hrel)
  · exfalso
    have : i = j := Fin.ext hij
    subst this
    exact lt_irrefl _ hlt
  · exact hij

theorem lex_append_of_lt_of_length_eq {x y : List Char} (t1 t2 : List Char)
    (hlen : x.length = y.length) (h : List.Lex (· < ·) x y) :
    List.Lex (· < ·) (x ++ t1) (y ++ t2) := by
  revert hlen
  induction h with
  | nil =>
      intro hlen
      simp at hlen
  | @rel a l1 b l2 hab =>
      intro _
      exact List.Lex.rel hab
  | @cons a l1 l2 hlex ih =>
      intro hlen
      exact List.Lex.cons (ih (by simpa using hlen))

theorem jobId_lt_of_time_lt (s1 s2 r1 r2 : String)
    (hlen : s1.length = s2.length) (hlt : s1 < s2) :
    ("job-" ++ s1 ++ "-" ++ r1 : String) < ("job-" ++ s2 ++ "-" ++ r2) := by
  rw [String.lt_iff_toList_lt] at hlt ⊢
  have htl : ∀ a b : String, (a ++ b).toList = a.toList ++ b.toList := by
    intro a b
    simp [String.toList, String.data_append]
  rw [htl, htl, htl, htl, htl, htl]
  have hassoc : ∀ u v w : List Char, u ++ v ++ w = u ++ (v ++ w) := by
    intro u v w
    simp
  rw [hassoc, hassoc, hassoc, hassoc]
  have hlex : List.Lex (· < ·) s1.toList s2.toList := hlt
  have hlen2 : s1.toList.length = s2.toList.length := hlen
  exact List.Lex.append_left _
    (lex_append_of_lt_of_length_eq ("-".toList ++ r1.toList) ("-".toList ++ r2.toList) hlen2 hlex)
    ("job-".toList)

/-- C6: listJobs returns exactly the well-formed stored job records (a
permutation of the parseable *.json files), ordered newest first by
identifier: the output is sorted descending by identifier, a record with a
smaller identifier can only appear at a later position, and in particular
a job whose identifier embeds a later time component (equal-length time
strings, as produced by Date.now over the store's lifetime) appears
strictly before one with an earlier time component; a corrupt record is
skipped without aborting the listing or affecting the other entries. -/
theorem claim_C6 (st : StoreState) :
    List.Perm (listJobs st) (parsedJobs st.jobsDir)
    ∧ List.Sorted jobDescId (listJobs st)
    ∧ (∀ i j : Fin (listJobs st).length,
        ((listJobs st).get i).id < ((listJobs st).get j).id → (j : Nat) < (i : Nat))
    ∧ (∀ pre post : List (String × JobFile), ∀ badName : String,
        parsedJobs (pre ++ (badName, JobFile.corrupt) :: post) = parsedJobs (pre ++ post))
    ∧ (∀ t1 t2 r1 r2 : String, t1.length = t2.length → t1 < t2 →
        ∀ i j : Fin (listJobs st).length,
          ((listJobs st).get i).id = "job-" ++ t1 ++ "-" ++ r1 →
          ((listJobs st).get j).id = "job-" ++ t2 ++ "-" ++ r2 →
          (j : Nat) < (i : Nat)) := by
  have hsorted : List.Sorted jobDescId (listJobs st) :=
    List.sorted_insertionSort jobDescId (parsedJobs st.jobsDir)
  refine ⟨List.perm_insertionSort jobDescId (parsedJobs st.jobsDir), hsorted, ?_, ?_, ?_⟩
  · intro i j hlt
    exact sorted_desc_pos hsorted i j hlt
  · intro pre post badName
    simp only [parsedJobs, List.filterMap_append, List.filterMap_cons]
    rcases hb : strEndsWith badName ".json" with _ | _ <;> simp
  · intro t1 t2 r1 r2 hlen hlt i j hi hj
    refine sorted_desc_pos hsorted i j ?_
    rw [hi, hj]
    exact jobId_lt_of_time_lt t1 t2 r1 r2 hlen hlt

/-- Witness for claim_C6: in C6store the descending sort places the job
with time component 200 at position 0 and the one with time component 100
at position 1, so the later-created job appears first. -/
theorem claim_C6_witness :
    (("100" : String).length = ("200" : String).length
      ∧ ("100" : String) < "200"
      ∧ ((listJobs C6store).get ⟨1, by decide⟩).id = "job-" ++ "100" ++ "-" ++ "abc"
      ∧ ((listJobs C6store).get ⟨0, by decide⟩).id = "job-" ++ "200" ++ "-" ++ "xyz")
    ∧ (0 : Nat) < 1 :=
  ⟨⟨rfl, String.lt_iff_toList_lt.mpr (by decide), by decide, by decide⟩,
   (claim_C6 C6store).2.2.2.2 "100" "200" "abc" "xyz" rfl
     (String.lt_iff_toList_lt.mpr (by decide))
     ⟨1, by decide⟩ ⟨0, by decide⟩ (by decide) (by decide)⟩
